import Mathlib

/-!
Verification of the zrender annular-sector path builder
(`src/unnamed/part_000`, exporting `buildPath`).

The source is translated into a shallow embedding over `ℚ`.  The calls to
the JavaScript `Math` primitives (`Math.sin`, `Math.cos`, `Math.acos`,
`Math.atan2`, `Math.sqrt`, `Math.PI`) are abstracted into an `Ops` bundle of
rational-valued functions: every structural statement below (which path
commands are emitted, in which order, with which radius arguments) is proved
for an arbitrary `Ops`, and concrete witnesses instantiate `Ops` with
explicit rational tables.  Path emission (`ctx.moveTo`, `ctx.arc`,
`ctx.lineTo`, `ctx.closePath`) is modelled by returning the ordered list of
emitted `PathCommand`s.
-/

namespace Zr

/-- Abstraction of the JavaScript `Math` primitives used by the source file
(lines 5-14 bind `Math.PI`, `Math.sin`, `Math.cos`, `Math.acos`,
`Math.atan2`, `Math.abs`, `Math.sqrt`, `Math.max`, `Math.min`; abs, max and
min are exact on `ℚ` and are not abstracted). -/
structure Ops where
  pi : ℚ
  sin : ℚ → ℚ
  cos : ℚ → ℚ
  acos : ℚ → ℚ
  atan2 : ℚ → ℚ → ℚ
  sqrt : ℚ → ℚ

/-- `const e = 1e-4;` (line 15): the uniform epsilon. -/
def e : ℚ := 1 / 10000

/-- A path command received by the sink (`CanvasRenderingContext2D | PathProxy`):
`moveTo`, `lineTo`, `arc(cx, cy, r, startAngle, endAngle, anticlockwise)`,
`closePath`. -/
inductive PathCommand where
  | moveTo (x y : ℚ)
  | lineTo (x y : ℚ)
  | arc (cx cy r startAngle endAngle : ℚ) (anticlockwise : Bool)
  | closePath
deriving DecidableEq, Repr

/-- The radius argument of an `arc` command, `none` for other commands. -/
def arcRadius : PathCommand → Option ℚ
  | .arc _ _ r _ _ _ => some r
  | _ => none

/-- Whether a command is an `arc`. -/
def isArcCmd : PathCommand → Bool
  | .arc _ _ _ _ _ _ => true
  | _ => false

/-- Whether a command is a `moveTo`. -/
def isMoveToCmd : PathCommand → Bool
  | .moveTo _ _ => true
  | _ => false

/-- Whether a command is a `lineTo`. -/
def isLineToCmd : PathCommand → Bool
  | .lineTo _ _ => true
  | _ => false

/-- One entry of a corner-radius specification: a plain number, or a
percentage string `"v%"` (carrying its numeric part). -/
inductive CRVal where
  | num (v : ℚ)
  | percent (v : ℚ)
deriving DecidableEq, Repr

/-- `cornerRadius?: number | string | (number | string)[]` (line 133):
either a single value or a list of values. -/
inductive CRSpec where
  | one (v : CRVal)
  | list (vs : List CRVal)
deriving DecidableEq, Repr

/-- Modelled from the spec: `parsePercent` from `contain/text` (imported at
line 1, not under `src/`).  Per §6 of the spec: a string ending in `%`
resolves to `(numeric part / 100) * base`; non-percentage values parse as
plain numbers. -/
def parsePercent : CRVal → ℚ → ℚ
  | .num v, _ => v
  | .percent v, base => v / 100 * base

/-- The shorthand expansion of lines 104-121: length 4 kept, length 3
repeats the last entry, length 2 expands `[a, b]` to `[a, a, b, b]`, any
other length uses `[cr[0], cr[0], 0, 0]` (for the empty list, `cr[0]` is
JavaScript `undefined`; modelled as `0`, a case outside every claim), and a
scalar `v` expands to `[v, v, v, v]`. -/
def crArr : CRSpec → List CRVal
  | .one v => [v, v, v, v]
  | .list [a, b, c, d] => [a, b, c, d]
  | .list [a, b, c] => [a, b, c, c]
  | .list [a, b] => [a, a, b, b]
  | .list (a :: _) => [a, a, .num 0, .num 0]
  | .list [] => [.num 0, .num 0, .num 0, .num 0]

/-- `map(arr, (cr, idx) => ...)` from `core/util` (line 122): list map with
the element index passed to the function. -/
def mapWithIdx (f : CRVal → ℕ → ℚ) : List CRVal → ℕ → List ℚ
  | [], _ => []
  | v :: vs, i => f v i :: mapWithIdx f vs (i + 1)

/-- `normalizeCornerRadius` (lines 98-123): expand the shorthand and resolve
each entry through `parsePercent`, against `r0` for indices `< 2` and
against `r` otherwise. -/
def normalizeCornerRadius (cr : CRSpec) (r0 r : ℚ) : List ℚ :=
  mapWithIdx (fun v idx => parsePercent v (if idx < 2 then r0 else r)) (crArr cr) 0

/-- `intersect` (lines 17-33): intersection of the infinite lines through
`(x0,y0),(x1,y1)` and `(x2,y2),(x3,y3)`; returns `none` when the square of
the determinant of the two direction vectors is below `e`. -/
def intersect (x0 y0 x1 y1 x2 y2 x3 y3 : ℚ) : Option (ℚ × ℚ) :=
  let dx10 := x1 - x0
  let dy10 := y1 - y0
  let dx32 := x3 - x2
  let dy32 := y3 - y2
  let t := dy32 * dx10 - dx32 * dy10
  if t * t < e then none
  else
    let t' := (dx32 * (y0 - y2) - dy32 * (x0 - x2)) / t
    some (x0 + t' * dx10, y0 + t' * dy10)

/-- Result record of `computeCornerTangents` (lines 75-82). -/
structure CornerTangents where
  cx : ℚ
  cy : ℚ
  x0 : ℚ
  y0 : ℚ
  x1 : ℚ
  y1 : ℚ
deriving DecidableEq, Repr

/-- `computeCornerTangents` (lines 36-83): the circle of radius `cr` tangent
to the perpendicular offset lines through `(x0,y0)` and `(x1,y1)`, picking
the closer of the two algebraic roots. -/
def computeCornerTangents (ops : Ops) (x0 y0 x1 y1 radius cr : ℚ)
    (clockwise : Bool) : CornerTangents :=
  let x01 := x0 - x1
  let y01 := y0 - y1
  let lo := (if clockwise then cr else -cr) / ops.sqrt (x01 * x01 + y01 * y01)
  let ox := lo * y01
  let oy := -lo * x01
  let x11 := x0 + ox
  let y11 := y0 + oy
  let x10 := x1 + ox
  let y10 := y1 + oy
  let x00 := (x11 + x10) / 2
  let y00 := (y11 + y10) / 2
  let dx := x10 - x11
  let dy := y10 - y11
  let d2 := dx * dx + dy * dy
  let r := radius - cr
  let s := x11 * y10 - x10 * y11
  let d := (if dy < 0 then (-1 : ℚ) else 1) * ops.sqrt (max 0 (r * r * d2 - s * s))
  let cx0 := (s * dy - dx * d) / d2
  let cy0 := (-s * dx - dy * d) / d2
  let cx1 := (s * dy + dx * d) / d2
  let cy1 := (-s * dx + dy * d) / d2
  let dx0 := cx0 - x00
  let dy0 := cy0 - y00
  let dx1 := cx1 - x00
  let dy1 := cy1 - y00
  let p := if dx0 * dx0 + dy0 * dy0 > dx1 * dx1 + dy1 * dy1 then (cx1, cy1) else (cx0, cy0)
  { cx := p.1, cy := p.2, x0 := -ox, y0 := -oy,
    x1 := p.1 * (radius / r - 1), y1 := p.2 * (radius / r - 1) }

/-- `calcCircleCenter` (lines 85-90): the point on the circle of radius `r`
around `(x, y)` at `angle`. -/
def calcCircleCenter (ops : Ops) (x y r angle : ℚ) : ℚ × ℚ :=
  (x + r * ops.cos angle, y + r * ops.sin angle)

/-- Reduction into `[0, 2π)` used by the angle normalizer. -/
def modPI2 (ops : Ops) (x : ℚ) : ℚ :=
  x - 2 * ops.pi * ⌊x / (2 * ops.pi)⌋

/-- Modelled from the spec: `normalizeArcAngles` from `core/PathProxy`
(imported at line 2, not under `src/`).  Per §4.2 of the spec: normalize
both angles into the chosen winding's canonical range — the start angle is
shifted into `[0, 2π)`, the end angle is shifted by the same delta and then
folded so that the pair spans at most one full turn in the winding given by
`anticlockwise`. -/
def normalizeArcAngles (ops : Ops) (anticlockwise : Bool)
    (startAngle endAngle : ℚ) : ℚ × ℚ :=
  let s := modPI2 ops startAngle
  let delta := s - startAngle
  let e1 := endAngle + delta
  let e2 :=
    if !anticlockwise ∧ e1 - s ≥ 2 * ops.pi then s + 2 * ops.pi
    else if anticlockwise ∧ s - e1 ≥ 2 * ops.pi then s - 2 * ops.pi
    else if !anticlockwise ∧ s > e1 then s + (2 * ops.pi - modPI2 ops (s - e1))
    else if anticlockwise ∧ s < e1 then s - (2 * ops.pi - modPI2 ops (e1 - s))
    else e1
  (s, e2)

/-- The sweep magnitude `arc` of lines 162-171: `0` when
`startAngle === endAngle`, otherwise the absolute difference of the
normalized angle pair (normalized with `!clockwise`). -/
def sectorArc (ops : Ops) (clockwise : Bool) (startAngle endAngle : ℚ) : ℚ :=
  if startAngle = endAngle then 0
  else
    let t := normalizeArcAngles ops (!clockwise) startAngle endAngle
    |t.1 - t.2|

/-- Lines 136-156: `radius = max(r, 0)`, `innerRadius = max(r0, 0)`, use the
inner radius as radius when there is no radius, and swap so that the first
component (the effective outer radius) is always the larger. -/
def effectiveRadii (r r0 : ℚ) : ℚ × ℚ :=
  let radius := max r 0
  let innerRadius := max r0 0
  let p := if radius > 0 then (radius, innerRadius) else (innerRadius, 0)
  if p.2 > p.1 then (p.2, p.1) else p

/-- The sector descriptor (lines 125-134).  `r`, `r0`, `clockwise` and
`cornerRadius` are optional in the source; an absent `r0` behaves as `0`
(`r0 || 0`, line 137), an absent `clockwise` as `false` (`!!shape.clockwise`,
line 158), an absent `cornerRadius` resolves like the scalar `0`; they are
modelled as always present. -/
structure Shape where
  cx : ℚ
  cy : ℚ
  startAngle : ℚ
  endAngle : ℚ
  clockwise : Bool
  r : ℚ
  r0 : ℚ
  cornerRadius : CRSpec
deriving DecidableEq, Repr

/-- The effective outer radius (`radius` after lines 136-156). -/
def effR (sh : Shape) : ℚ := (effectiveRadii sh.r sh.r0).1

/-- The effective inner radius (`innerRadius` after lines 136-156). -/
def effR0 (sh : Shape) : ℚ := (effectiveRadii sh.r sh.r0).2

/-- The values buildPath has in scope once lines 136-173 have run: center,
angles, winding, effective radii, sweep, and the four resolved corner radii
`[icrStart, icrEnd, ocrStart, ocrEnd]` (line 173, destructured from
`normalizeCornerRadius(cornerRadius, r0, r)` — note the unswapped `r0`, `r`
as percentage bases). -/
structure SectorEnv where
  cx : ℚ
  cy : ℚ
  startAngle : ℚ
  endAngle : ℚ
  clockwise : Bool
  radius : ℚ
  innerRadius : ℚ
  arc : ℚ
  icrStart : ℚ
  icrEnd : ℚ
  ocrStart : ℚ
  ocrEnd : ℚ
deriving DecidableEq, Repr

/-- Assemble the `SectorEnv` from a shape (lines 136-173). -/
def envOf (ops : Ops) (sh : Shape) : SectorEnv :=
  let crs := normalizeCornerRadius sh.cornerRadius sh.r0 sh.r
  { cx := sh.cx
    cy := sh.cy
    startAngle := sh.startAngle
    endAngle := sh.endAngle
    clockwise := sh.clockwise
    radius := effR sh
    innerRadius := effR0 sh
    arc := sectorArc ops sh.clockwise sh.startAngle sh.endAngle
    icrStart := crs.getD 0 0
    icrEnd := crs.getD 1 0
    ocrStart := crs.getD 2 0
    ocrEnd := crs.getD 3 0 }

/-- `halfRd = abs(radius - innerRadius) / 2` (line 193). -/
def halfRdE (env : SectorEnv) : ℚ := |env.radius - env.innerRadius| / 2

/-- `ocrs = min(halfRd, ocrStart)` (line 194). -/
def ocrsE (env : SectorEnv) : ℚ := min (halfRdE env) env.ocrStart

/-- `ocre = min(halfRd, ocrEnd)` (line 195). -/
def ocreE (env : SectorEnv) : ℚ := min (halfRdE env) env.ocrEnd

/-- `icrs = min(halfRd, icrStart)` (line 196). -/
def icrsE (env : SectorEnv) : ℚ := min (halfRdE env) env.icrStart

/-- `icre = min(halfRd, icrEnd)` (line 197). -/
def icreE (env : SectorEnv) : ℚ := min (halfRdE env) env.icrEnd

/-- `ocrMax = max(ocrs, ocre)` (line 199). -/
def ocrMaxE (env : SectorEnv) : ℚ := max (ocrsE env) (ocreE env)

/-- `icrMax = max(icrs, icre)` (line 200). -/
def icrMaxE (env : SectorEnv) : ℚ := max (icrsE env) (icreE env)

/-- `xrs = radius * cos(startAngle)` (line 204). -/
def xrs (ops : Ops) (env : SectorEnv) : ℚ := env.radius * ops.cos env.startAngle

/-- `yrs = radius * sin(startAngle)` (line 205). -/
def yrs (ops : Ops) (env : SectorEnv) : ℚ := env.radius * ops.sin env.startAngle

/-- `xire = innerRadius * cos(endAngle)` (line 206). -/
def xire (ops : Ops) (env : SectorEnv) : ℚ := env.innerRadius * ops.cos env.endAngle

/-- `yire = innerRadius * sin(endAngle)` (line 207). -/
def yire (ops : Ops) (env : SectorEnv) : ℚ := env.innerRadius * ops.sin env.endAngle

/-- `xre = radius * cos(endAngle)` (line 216). -/
def xre (ops : Ops) (env : SectorEnv) : ℚ := env.radius * ops.cos env.endAngle

/-- `yre = radius * sin(endAngle)` (line 217). -/
def yre (ops : Ops) (env : SectorEnv) : ℚ := env.radius * ops.sin env.endAngle

/-- `xirs = innerRadius * cos(startAngle)` (line 218). -/
def xirs (ops : Ops) (env : SectorEnv) : ℚ := env.innerRadius * ops.cos env.startAngle

/-- `yirs = innerRadius * sin(startAngle)` (line 219). -/
def yirs (ops : Ops) (env : SectorEnv) : ℚ := env.innerRadius * ops.sin env.startAngle

/-- The `intersect` call of line 223, on the outer tangent line
(outer-start point to inner-start point) and the line through the
end-angle points. -/
def intersectOf (ops : Ops) (env : SectorEnv) : Option (ℚ × ℚ) :=
  intersect (xrs ops env) (yrs ops env) (xirs ops env) (yirs ops env)
    (xre ops env) (yre ops env) (xire ops env) (yire ops env)

/-- `(limitedOcrMax, limitedIcrMax)` after lines 199-237: initialized to
`(ocrMax, icrMax)` and tightened to
`(min(ocrMax, (radius-b)/(a+1)), min(icrMax, (innerRadius-b)/(a-1)))`
only when a corner radius is non-negligible, the sweep is under `π`, and
the tangent-line intersection exists. -/
def limitedPair (ops : Ops) (env : SectorEnv) : ℚ × ℚ :=
  if (ocrMaxE env > e ∨ icrMaxE env > e) ∧ env.arc < ops.pi then
    match intersectOf ops env with
    | some it =>
      let x0 := xrs ops env - it.1
      let y0 := yrs ops env - it.2
      let x1 := xre ops env - it.1
      let y1 := yre ops env - it.2
      let a := 1 / ops.sin (ops.acos ((x0 * x1 + y0 * y1) /
        (ops.sqrt (x0 * x0 + y0 * y0) * ops.sqrt (x1 * x1 + y1 * y1))) / 2)
      let b := ops.sqrt (it.1 * it.1 + it.2 * it.2)
      (min (ocrMaxE env) ((env.radius - b) / (a + 1)),
       min (icrMaxE env) ((env.innerRadius - b) / (a - 1)))
    | none => (ocrMaxE env, icrMaxE env)
  else (ocrMaxE env, icrMaxE env)

/-- `crStart = min(ocrStart, limitedOcrMax)` (line 245). -/
def crStartO (ops : Ops) (env : SectorEnv) : ℚ :=
  min env.ocrStart (limitedPair ops env).1

/-- `crEnd = min(ocrEnd, limitedOcrMax)` (line 246). -/
def crEndO (ops : Ops) (env : SectorEnv) : ℚ :=
  min env.ocrEnd (limitedPair ops env).1

/-- `ct0` of line 247: start-corner fillet of the outer ring. -/
def ct0O (ops : Ops) (env : SectorEnv) : CornerTangents :=
  computeCornerTangents ops (xirs ops env) (yirs ops env) (xrs ops env) (yrs ops env)
    env.radius (crStartO ops env) env.clockwise

/-- `ct1` of line 248: end-corner fillet of the outer ring. -/
def ct1O (ops : Ops) (env : SectorEnv) : CornerTangents :=
  computeCornerTangents ops (xre ops env) (yre ops env) (xire ops env) (yire ops env)
    env.radius (crEndO ops env) env.clockwise

/-- `crStart = min(icrStart, limitedIcrMax)` (line 279). -/
def crStartI (ops : Ops) (env : SectorEnv) : ℚ :=
  min env.icrStart (limitedPair ops env).2

/-- `crEnd = min(icrEnd, limitedIcrMax)` (line 280). -/
def crEndI (ops : Ops) (env : SectorEnv) : ℚ :=
  min env.icrEnd (limitedPair ops env).2

/-- `ct0` of line 281: end-corner fillet of the inner ring (negated radius). -/
def ct0I (ops : Ops) (env : SectorEnv) : CornerTangents :=
  computeCornerTangents ops (xire ops env) (yire ops env) (xre ops env) (yre ops env)
    env.innerRadius (-(crEndI ops env)) env.clockwise

/-- `ct1` of line 282: start-corner fillet of the inner ring (negated radius). -/
def ct1I (ops : Ops) (env : SectorEnv) : CornerTangents :=
  computeCornerTangents ops (xrs ops env) (yrs ops env) (xirs ops env) (yirs ops env)
    env.innerRadius (-(crStartI ops env)) env.clockwise

/-- Outer-boundary emission of the general sector (lines 239-271): a single
`moveTo` for a collapsed sweep; otherwise, when the limited outer corner
radius is non-negligible, a `moveTo` to the start fillet's tangent point
followed by either the single merged fillet arc (when
`limitedOcrMax < ocrMax`) or the start fillet, the main outer-ring arc and
the end fillet; otherwise a plain `moveTo` plus full-radius arc. -/
def sectorOuter (ops : Ops) (env : SectorEnv) : List PathCommand :=
  if ¬(env.arc > e) then
    [.moveTo (env.cx + xrs ops env) (env.cy + yrs ops env)]
  else if (limitedPair ops env).1 > e then
    .moveTo (env.cx + (ct0O ops env).cx + (ct0O ops env).x0)
      (env.cy + (ct0O ops env).cy + (ct0O ops env).y0) ::
    (if (limitedPair ops env).1 < ocrMaxE env then
      [.arc (env.cx + (ct0O ops env).cx) (env.cy + (ct0O ops env).cy)
        (limitedPair ops env).1
        (ops.atan2 (ct0O ops env).y0 (ct0O ops env).x0)
        (ops.atan2 (ct1O ops env).y0 (ct1O ops env).x0) (!env.clockwise)]
    else
      [.arc (env.cx + (ct0O ops env).cx) (env.cy + (ct0O ops env).cy)
        (crStartO ops env)
        (ops.atan2 (ct0O ops env).y0 (ct0O ops env).x0)
        (ops.atan2 (ct0O ops env).y1 (ct0O ops env).x1) (!env.clockwise),
       .arc env.cx env.cy env.radius
        (ops.atan2 ((ct0O ops env).cy + (ct0O ops env).y1) ((ct0O ops env).cx + (ct0O ops env).x1))
        (ops.atan2 ((ct1O ops env).cy + (ct1O ops env).y1) ((ct1O ops env).cx + (ct1O ops env).x1))
        (!env.clockwise),
       .arc (env.cx + (ct1O ops env).cx) (env.cy + (ct1O ops env).cy)
        (crEndO ops env)
        (ops.atan2 (ct1O ops env).y1 (ct1O ops env).x1)
        (ops.atan2 (ct1O ops env).y0 (ct1O ops env).x0) (!env.clockwise)])
  else
    [.moveTo (env.cx + xrs ops env) (env.cy + yrs ops env),
     .arc env.cx env.cy env.radius env.startAngle env.endAngle (!env.clockwise)]

/-- Inner-boundary emission of the general sector (lines 273-303): a
`lineTo` to the inner end point when there is no inner ring or no sweep;
otherwise, when the limited inner corner radius is non-negligible, a
`lineTo` to the end fillet's tangent point followed by either the single
merged fillet arc (when `limitedIcrMax < icrMax`) or the end fillet, the
main inner-ring arc (drawn with winding `clockwise`) and the start fillet;
otherwise the plain inner-ring arc. -/
def sectorInner (ops : Ops) (env : SectorEnv) : List PathCommand :=
  if ¬(env.innerRadius > e) ∨ ¬(env.arc > e) then
    [.lineTo (env.cx + xire ops env) (env.cy + yire ops env)]
  else if (limitedPair ops env).2 > e then
    .lineTo (env.cx + (ct0I ops env).cx + (ct0I ops env).x0)
      (env.cy + (ct0I ops env).cy + (ct0I ops env).y0) ::
    (if (limitedPair ops env).2 < icrMaxE env then
      [.arc (env.cx + (ct0I ops env).cx) (env.cy + (ct0I ops env).cy)
        (limitedPair ops env).2
        (ops.atan2 (ct0I ops env).y0 (ct0I ops env).x0)
        (ops.atan2 (ct1I ops env).y0 (ct1I ops env).x0) (!env.clockwise)]
    else
      [.arc (env.cx + (ct0I ops env).cx) (env.cy + (ct0I ops env).cy)
        (crEndI ops env)
        (ops.atan2 (ct0I ops env).y0 (ct0I ops env).x0)
        (ops.atan2 (ct0I ops env).y1 (ct0I ops env).x1) (!env.clockwise),
       .arc env.cx env.cy env.innerRadius
        (ops.atan2 ((ct0I ops env).cy + (ct0I ops env).y1) ((ct0I ops env).cx + (ct0I ops env).x1))
        (ops.atan2 ((ct1I ops env).cy + (ct1I ops env).y1) ((ct1I ops env).cx + (ct1I ops env).x1))
        env.clockwise,
       .arc (env.cx + (ct1I ops env).cx) (env.cy + (ct1I ops env).cy)
        (crStartI ops env)
        (ops.atan2 (ct1I ops env).y1 (ct1I ops env).x1)
        (ops.atan2 (ct1I ops env).y0 (ct1I ops env).x0) (!env.clockwise)])
  else
    [.arc env.cx env.cy env.innerRadius env.endAngle env.startAngle env.clockwise]

/-- Full-circle / annulus emission (lines 180-190). -/
def circleBody (ops : Ops) (env : SectorEnv) : List PathCommand :=
  let p := calcCircleCenter ops env.cx env.cy env.radius env.startAngle
  [.moveTo p.1 p.2,
   .arc env.cx env.cy env.radius env.startAngle env.endAngle (!env.clockwise)] ++
  (if env.innerRadius > e then
    let q := calcCircleCenter ops env.cx env.cy env.innerRadius env.endAngle
    [.moveTo q.1 q.2,
     .arc env.cx env.cy env.innerRadius env.endAngle env.startAngle env.clockwise]
  else [])

/-- The shape classification of lines 176-304: point, full circle/annulus,
or general sector (outer boundary followed by inner boundary). -/
def bodyOf (ops : Ops) (env : SectorEnv) : List PathCommand :=
  if ¬(env.radius > e) then [.moveTo env.cx env.cy]
  else if env.arc > 2 * ops.pi - e then circleBody ops env
  else sectorOuter ops env ++ sectorInner ops env

/-- `buildPath` (lines 125-307): emits nothing when neither radius is
positive (lines 141-143), otherwise the classified body followed by
`closePath` (line 306). -/
def buildPath (ops : Ops) (sh : Shape) : List PathCommand :=
  if ¬(max sh.r 0 > 0) ∧ ¬(max sh.r0 0 > 0) then []
  else bodyOf ops (envOf ops sh) ++ [.closePath]

/-- Whether a corner-radius entry is a plain number (no `%`). -/
def CRVal.isNum : CRVal → Bool
  | .num _ => true
  | .percent _ => false

/-- Whether a corner-radius specification contains no percentage entries. -/
def crNoPercent : CRSpec → Bool
  | .one v => v.isNum
  | .list vs => vs.all CRVal.isNum

/-- Concrete rational stand-in for the `Math` primitives, used by the
witness and counterexample evaluations. -/
def dummyOps : Ops where
  pi := 22 / 7
  sin := fun q => if q = 1 / 2 then 3 / 5 else if q = 1 then 1 / 2 else 0
  cos := fun q => if q = 0 then 1 else if q = 1 / 2 then 4 / 5 else 0
  acos := fun q => if q = 4 / 5 then 1 else 0
  atan2 := fun _ _ => 0
  sqrt := fun _ => 0

/-- Concrete input with `r = 0`, `r0 = 0`. -/
def shC3 : Shape := ⟨1, 2, 0, 1, true, 0, 0, .one (.num 0)⟩

/-- Concrete input with `0 < r ≤ 1e-4`, `r0 = 0`. -/
def shC4 : Shape := ⟨0, 0, 0, 1, true, 1 / 100000, 0, .one (.num 0)⟩

/-- Concrete pair of inputs differing only by swapping `r` and `r0`, with a
percentage corner radius. -/
def shC5a : Shape := ⟨0, 0, 0, 1 / 2, true, 100, 10, .one (.percent 50)⟩

/-- `shC5a` with `r` and `r0` swapped. -/
def shC5b : Shape := ⟨0, 0, 0, 1 / 2, true, 10, 100, .one (.percent 50)⟩

/-- Full-turn input (`endAngle = startAngle + 2π` for the rational `pi` of
`dummyOps`). -/
def shC7w : Shape := ⟨0, 0, 0, 2 * (22 / 7), true, 10, 4, .one (.num 0)⟩

/-- Input whose computed sweep is exactly `2π - 1e-4` (for the rational `pi`
of `dummyOps`): at this boundary `arc > 2π - e` is false. -/
def shC7x : Shape := ⟨0, 0, 0, 2 * (22 / 7) - 1 / 10000, true, 10, 4, .one (.num 0)⟩

/-- Zero-sweep input with nonzero radii. -/
def shC8w : Shape := ⟨0, 0, 1 / 2, 1 / 2, true, 10, 4, .one (.num 0)⟩

/-- Environment of a zero-sweep input: its radial edge lines coincide, so
the tangent-line intersection is degenerate. -/
def envC9w : SectorEnv := envOf dummyOps ⟨0, 0, 1 / 2, 1 / 2, true, 10, 4, .one (.num 5)⟩

/-- `Math` stand-in for the merged-fillet witness: `cos 0 = 1`,
`(cos, sin)(1/2) = (4/5, 3/5)`, `acos(4/5) = 1`, `sqrt 10000 = 100`.  With
these values the radial edges of `shC2w` intersect at the origin and the
tangent-half-angle factor is `a = 1/sin(1/2) = 5/3`. -/
def opsC2w : Ops where
  pi := 22 / 7
  sin := fun q => if q = 1 / 2 then 3 / 5 else 0
  cos := fun q => if q = 0 then 1 else if q = 1 / 2 then 4 / 5 else 0
  acos := fun q => if q = 4 / 5 then 1 else 0
  atan2 := fun _ _ => 0
  sqrt := fun q => if q = 10000 then 100 else 0

/-- Narrow sector (sweep `1/2`) with over-requested corner radius 50 on
radius 100: the tangent-line clamp reduces `ocrMax = 50` to `37.5`. -/
def shC2w : Shape := ⟨0, 0, 0, 1 / 2, true, 100, 0, .one (.num 50)⟩

/-- `Math` stand-in for the sub-epsilon-sweep counterexample. -/
def opsC2x : Ops where
  pi := 22 / 7
  sin := fun q => if q = 1 / 20000 then 1 / 100 else if q = 1 / 2 then 1 / 100 else 0
  cos := fun q => if q = 0 then 1 else if q = 1 / 20000 then 1 else 0
  acos := fun q => if q = 1 then 1 else 0
  atan2 := fun _ _ => 0
  sqrt := fun q => if q = 10000 then 100 else if q = 10001 then 100 else 0

/-- Sweep `1/20000 ≤ 1e-4` with corner radius 25 on radius 100: the
tangent-line clamp still fires (`limitedOcrMax = 100/101 < 25 = ocrMax`)
but the collapsed-sweep branch emits a bare `moveTo`, no merged arc. -/
def shC2x : Shape := ⟨0, 0, 0, 1 / 20000, true, 100, 0, .one (.num 25)⟩

/-- Full-circle input for the fillet-radius-bound witness. -/
def shC1w : Shape := ⟨0, 0, 0, 2 * (22 / 7), true, 10, 4, .one (.num 0)⟩

/-- Swap-invariance witness input (plain-number corner radius), `r = 5`,
`r0 = 10` as in the spec's example. -/
def shC5w1 : Shape := ⟨0, 0, 0, 1 / 2, true, 5, 10, .one (.num 4)⟩

/-- `shC5w1` with `r` and `r0` swapped. -/
def shC5w2 : Shape := ⟨0, 0, 0, 1 / 2, true, 10, 5, .one (.num 4)⟩

/-! ### Structural lemmas about the embedded builder -/

/-- Lines 136-156 compute exactly the sorted pair of the two clamped radii:
the effective outer radius is the larger of `max r 0` and `max r0 0` and the
effective inner radius the smaller. -/
theorem effectiveRadii_eq (r r0 : ℚ) :
    effectiveRadii r r0 = (max (max r 0) (max r0 0), min (max r 0) (max r0 0)) := by
  have h1 : (0 : ℚ) ≤ max r 0 := le_max_right r 0
  have h2 : (0 : ℚ) ≤ max r0 0 := le_max_right r0 0
  simp only [effectiveRadii]
  by_cases ha : max r 0 > 0
  · simp only [if_pos ha]
    by_cases hb : max r0 0 > max r 0
    · simp only [if_pos hb]
      rw [max_eq_right hb.le, min_eq_left hb.le]
    · simp only [if_neg hb]
      push_neg at hb
      rw [max_eq_left hb, min_eq_right hb]
  · simp only [if_neg ha]
    push_neg at ha
    have ha0 : max r 0 = 0 := le_antisymm ha h1
    have hc : ¬((0 : ℚ) > max r0 0) := not_lt.mpr h2
    simp only [if_neg hc]
    rw [ha0, max_eq_right h2, min_eq_left h2]

theorem effR_eq (sh : Shape) : effR sh = max (max sh.r 0) (max sh.r0 0) := by
  rw [effR, effectiveRadii_eq]

theorem effR0_eq (sh : Shape) : effR0 sh = min (max sh.r 0) (max sh.r0 0) := by
  rw [effR0, effectiveRadii_eq]

theorem effR0_le_effR (sh : Shape) : effR0 sh ≤ effR sh := by
  rw [effR_eq, effR0_eq]; exact min_le_max

theorem effR0_nonneg (sh : Shape) : 0 ≤ effR0 sh := by
  rw [effR0_eq]
  exact le_min (le_max_right _ _) (le_max_right _ _)

/-- The radius-sorting of lines 145-156 is symmetric in `r` and `r0`. -/
theorem effectiveRadii_comm (r r0 : ℚ) : effectiveRadii r r0 = effectiveRadii r0 r := by
  rw [effectiveRadii_eq, effectiveRadii_eq, max_comm (max r 0), min_comm (max r 0)]

/-- `halfRd` (line 193) never exceeds half the distance between the raw
input radii. -/
theorem halfRdE_envOf_le (ops : Ops) (sh : Shape) :
    halfRdE (envOf ops sh) ≤ |sh.r - sh.r0| / 2 := by
  have h : halfRdE (envOf ops sh) = |max sh.r 0 - max sh.r0 0| / 2 := by
    simp only [halfRdE, envOf]
    rw [effR_eq, effR0_eq, abs_of_nonneg (sub_nonneg.mpr min_le_max), max_sub_min_eq_abs,
      abs_sub_comm]
  rw [h]
  have := abs_max_sub_max_le_abs sh.r sh.r0 0
  linarith

theorem halfRdE_nonneg (env : SectorEnv) : 0 ≤ halfRdE env := by
  unfold halfRdE
  positivity

/-- The half-thickness clamp of lines 194-199: `ocrMax ≤ halfRd`. -/
theorem ocrMaxE_le_halfRdE (env : SectorEnv) : ocrMaxE env ≤ halfRdE env := by
  unfold ocrMaxE ocrsE ocreE
  exact max_le (min_le_left _ _) (min_le_left _ _)

/-- The half-thickness clamp of lines 196-200: `icrMax ≤ halfRd`. -/
theorem icrMaxE_le_halfRdE (env : SectorEnv) : icrMaxE env ≤ halfRdE env := by
  unfold icrMaxE icrsE icreE
  exact max_le (min_le_left _ _) (min_le_left _ _)

/-- The tangent-line restriction of lines 221-236 only ever lowers
`limitedOcrMax` below `ocrMax`. -/
theorem limitedPair_fst_le (ops : Ops) (env : SectorEnv) :
    (limitedPair ops env).1 ≤ ocrMaxE env := by
  unfold limitedPair
  split_ifs with h
  · rcases hit : intersectOf ops env with _ | it <;> simp [hit, min_le_left]
  · simp

/-- The tangent-line restriction of lines 221-236 only ever lowers
`limitedIcrMax` below `icrMax`. -/
theorem limitedPair_snd_le (ops : Ops) (env : SectorEnv) :
    (limitedPair ops env).2 ≤ icrMaxE env := by
  unfold limitedPair
  split_ifs with h
  · rcases hit : intersectOf ops env with _ | it <;> simp [hit, min_le_left]
  · simp

/-- A strict reduction `limitedOcrMax < ocrMax` can only come from the
restriction branch, which requires `arc < π` (line 222). -/
theorem limitedPair_lt_arc (ops : Ops) (env : SectorEnv)
    (h : (limitedPair ops env).1 < ocrMaxE env) : env.arc < ops.pi := by
  unfold limitedPair at h
  split_ifs at h with hc
  · exact hc.2
  · simp at h

/-- Every branch of the sector outer boundary (lines 239-271) starts with a
`moveTo`. -/
theorem sectorOuter_head (ops : Ops) (env : SectorEnv) :
    ∃ x y t, sectorOuter ops env = .moveTo x y :: t := by
  unfold sectorOuter
  split_ifs <;> exact ⟨_, _, _, rfl⟩

/-- Every branch of the classified body (lines 176-304) starts with a
`moveTo`. -/
theorem bodyOf_head (ops : Ops) (env : SectorEnv) :
    ∃ x y t, bodyOf ops env = .moveTo x y :: t := by
  unfold bodyOf
  by_cases h1 : ¬(env.radius > e)
  · rw [if_pos h1]
    exact ⟨_, _, _, rfl⟩
  · rw [if_neg h1]
    by_cases h2 : env.arc > 2 * ops.pi - e
    · rw [if_pos h2]
      unfold circleBody
      exact ⟨_, _, _, rfl⟩
    · rw [if_neg h2]
      obtain ⟨x, y, t, ht⟩ := sectorOuter_head ops env
      exact ⟨x, y, t ++ sectorInner ops env, by rw [ht]; simp⟩

theorem envOf_radius (ops : Ops) (sh : Shape) : (envOf ops sh).radius = effR sh := rfl

theorem envOf_innerRadius (ops : Ops) (sh : Shape) : (envOf ops sh).innerRadius = effR0 sh := rfl

theorem envOf_cx (ops : Ops) (sh : Shape) : (envOf ops sh).cx = sh.cx := rfl

theorem envOf_cy (ops : Ops) (sh : Shape) : (envOf ops sh).cy = sh.cy := rfl

theorem envOf_startAngle (ops : Ops) (sh : Shape) : (envOf ops sh).startAngle = sh.startAngle := rfl

theorem envOf_endAngle (ops : Ops) (sh : Shape) : (envOf ops sh).endAngle = sh.endAngle := rfl

theorem envOf_clockwise (ops : Ops) (sh : Shape) : (envOf ops sh).clockwise = sh.clockwise := rfl

theorem envOf_arc (ops : Ops) (sh : Shape) :
    (envOf ops sh).arc = sectorArc ops sh.clockwise sh.startAngle sh.endAngle := rfl

/-- A positive effective outer radius means at least one raw radius is
positive, so the early return of lines 141-143 is not taken. -/
theorem guard_false_of_effR (sh : Shape) (h : effR sh > e) :
    ¬(¬(max sh.r 0 > 0) ∧ ¬(max sh.r0 0 > 0)) := by
  rw [effR_eq] at h
  rintro ⟨h1, h2⟩
  push_neg at h1 h2
  have hm : max (max sh.r 0) (max sh.r0 0) ≤ 0 := max_le h1 h2
  have he : (0 : ℚ) < e := by norm_num [e]
  linarith

/-- Emptiness characterization of `buildPath` (lines 136-143 and 306):
shared helper. -/
theorem buildPath_empty_iff (ops : Ops) (sh : Shape) :
    buildPath ops sh = [] ↔ max sh.r 0 ≤ 0 ∧ max sh.r0 0 ≤ 0 := by
  unfold buildPath
  by_cases hg : ¬(max sh.r 0 > 0) ∧ ¬(max sh.r0 0 > 0)
  · rw [if_pos hg]
    exact ⟨fun _ => ⟨not_lt.mp hg.1, not_lt.mp hg.2⟩, fun _ => rfl⟩
  · rw [if_neg hg]
    constructor
    · intro h
      obtain ⟨x, y, t, ht⟩ := bodyOf_head ops (envOf ops sh)
      rw [ht] at h
      simp at h
    · intro h
      exact absurd ⟨not_lt.mpr h.1, not_lt.mpr h.2⟩ hg

/-- `mapWithIdx` with `parsePercent` does not depend on the percentage bases
when every entry is a plain number. -/
theorem mapWithIdx_num (x y u w : ℚ) :
    ∀ (l : List CRVal) (i : ℕ), (∀ v ∈ l, v.isNum = true) →
      mapWithIdx (fun v idx => parsePercent v (if idx < 2 then x else y)) l i =
      mapWithIdx (fun v idx => parsePercent v (if idx < 2 then u else w)) l i := by
  intro l
  induction l with
  | nil => intro i _; rfl
  | cons a t ih =>
    intro i h
    have ha : a.isNum = true := h a (List.mem_cons_self a t)
    have ht : ∀ v ∈ t, v.isNum = true := fun v hv => h v (List.mem_cons_of_mem a hv)
    cases a with
    | num q =>
      simp only [mapWithIdx]
      rw [ih (i + 1) ht]
      rfl
    | percent q => simp [CRVal.isNum] at ha

/-- The shorthand expansion preserves "all entries are plain numbers". -/
theorem crArr_num (cr : CRSpec) (h : crNoPercent cr = true) :
    ∀ v ∈ crArr cr, v.isNum = true := by
  cases cr with
  | one v =>
    intro w hw
    simp [crArr] at hw
    subst hw
    exact h
  | list vs =>
    have hall : ∀ v ∈ vs, v.isNum = true := by
      intro v hv
      exact List.all_eq_true.mp h v hv
    rcases vs with _ | ⟨a, _ | ⟨b, _ | ⟨c, _ | ⟨d, _ | ⟨x, t⟩⟩⟩⟩⟩
    all_goals intro w hw
    all_goals simp [crArr] at hw
    · subst hw
      rfl
    · rcases hw with rfl | rfl
      · exact hall _ (by simp)
      · rfl
    · rcases hw with rfl | rfl
      · exact hall _ (by simp)
      · exact hall _ (by simp)
    · rcases hw with rfl | rfl | rfl
      · exact hall _ (by simp)
      · exact hall _ (by simp)
      · exact hall _ (by simp)
    · rcases hw with rfl | rfl | rfl | rfl
      · exact hall _ (by simp)
      · exact hall _ (by simp)
      · exact hall _ (by simp)
      · exact hall _ (by simp)
    · rcases hw with rfl | rfl
      · exact hall _ (by simp)
      · rfl

/-- For a percentage-free specification, the resolver's output does not
depend on the bases `r0`, `r` passed at line 173. -/
theorem ncr_num (cr : CRSpec) (h : crNoPercent cr = true) (x y u w : ℚ) :
    normalizeCornerRadius cr x y = normalizeCornerRadius cr u w := by
  unfold normalizeCornerRadius
  exact mapWithIdx_num x y u w (crArr cr) 0 (crArr_num cr h)

/-! ### Claim theorems -/

/-- C3 counterexample: with `r = 0, r0 = 0` (center `(1,2)`), `buildPath`
does **not** emit `MoveTo(cx, cy)` then `ClosePath` — the early return of
lines 141-143 emits nothing at all. -/
theorem sector_zero_radii_no_moveTo :
    ¬(buildPath dummyOps shC3 = [.moveTo 1 2, .closePath]) := by
  norm_num [buildPath, shC3]
  exact List.cons_ne_nil _ _

/-- C3 amended: calling `buildPath` with `r = 0` and `r0 = 0` emits no path
commands at all (lines 141-143). -/
theorem sector_zero_radii_emits_nothing :
    ∀ (ops : Ops) (cx cy sa ea : ℚ) (cw : Bool) (cr : CRSpec),
      buildPath ops ⟨cx, cy, sa, ea, cw, 0, 0, cr⟩ = [] := by
  intro ops cx cy sa ea cw cr
  simp [buildPath]

/-- C4 counterexample: with `r = 1e-5 ≤ 1e-4` and `r0 = 0 ≤ 1e-4`,
`buildPath` emits `MoveTo(cx, cy), ClosePath` — not nothing. -/
theorem sector_small_radii_emit :
    shC4.r ≤ e ∧ shC4.r0 ≤ e ∧
    buildPath dummyOps shC4 = [.moveTo 0 0, .closePath] := by
  refine ⟨by norm_num [shC4, e], by norm_num [shC4, e], ?_⟩
  norm_num [buildPath, bodyOf, sectorOuter, sectorInner, circleBody, limitedPair, intersectOf,
    intersect, envOf, effR, effR0, effectiveRadii, sectorArc, normalizeArcAngles, modPI2,
    normalizeCornerRadius, crArr, mapWithIdx, parsePercent, halfRdE, ocrsE, ocreE, icrsE, icreE,
    ocrMaxE, icrMaxE, xrs, yrs, xire, yire, xre, yre, xirs, yirs, crStartO, crEndO, crStartI,
    crEndI, ct0O, ct1O, ct0I, ct1I, computeCornerTangents, calcCircleCenter, dummyOps, shC4,
    e, max_def, min_def, abs, List.getD]

/-- C4 amended: `buildPath` emits no commands exactly when neither `max(r,0)`
nor `max(r0,0)` is positive (lines 136-143); a positive radius `≤ 1e-4`
still emits the degenerate point path. -/
theorem sector_empty_iff :
    ∀ (ops : Ops) (sh : Shape),
      buildPath ops sh = [] ↔ max sh.r 0 ≤ 0 ∧ max sh.r0 0 ≤ 0 := by
  intro ops sh
  exact buildPath_empty_iff ops sh

/-- C1: every `Arc` command emitted by `buildPath` is either a main ring
arc at the effective outer radius, a main ring arc at the effective inner
radius, or a fillet arc whose radius is at most `|r - r0| / 2`: the
half-thickness clamp of lines 193-202 bounds every fillet radius
(`min(ocrStart, limitedOcrMax)`, `min(ocrEnd, limitedOcrMax)`,
`limitedOcrMax` itself, and the inner counterparts) by `halfRd ≤ |r-r0|/2`,
for any sweep. -/
theorem fillet_radius_bound :
    ∀ (ops : Ops) (sh : Shape) (c : PathCommand), c ∈ buildPath ops sh →
      ∀ q, arcRadius c = some q →
        q = effR sh ∨ q = effR0 sh ∨ q ≤ |sh.r - sh.r0| / 2 := by
  intro ops sh c hc q hq
  have hb1 := limitedPair_fst_le ops (envOf ops sh)
  have hb2 := limitedPair_snd_le ops (envOf ops sh)
  have ho := ocrMaxE_le_halfRdE (envOf ops sh)
  have hi := icrMaxE_le_halfRdE (envOf ops sh)
  have hh := halfRdE_envOf_le ops sh
  have houter : (limitedPair ops (envOf ops sh)).1 ≤ |sh.r - sh.r0| / 2 :=
    le_trans hb1 (le_trans ho hh)
  have hinner : (limitedPair ops (envOf ops sh)).2 ≤ |sh.r - sh.r0| / 2 :=
    le_trans hb2 (le_trans hi hh)
  unfold buildPath at hc
  by_cases hg : ¬(max sh.r 0 > 0) ∧ ¬(max sh.r0 0 > 0)
  · rw [if_pos hg] at hc
    simp at hc
  · rw [if_neg hg] at hc
    rw [List.mem_append] at hc
    rcases hc with hc | hc
    · unfold bodyOf at hc
      by_cases h1 : ¬((envOf ops sh).radius > e)
      · rw [if_pos h1] at hc
        simp at hc
        subst hc
        simp [arcRadius] at hq
      · rw [if_neg h1] at hc
        by_cases h2 : (envOf ops sh).arc > 2 * ops.pi - e
        · rw [if_pos h2] at hc
          unfold circleBody at hc
          rw [List.mem_append] at hc
          rcases hc with hc | hc
          · simp at hc
            rcases hc with hc | hc
            · subst hc; simp [arcRadius] at hq
            · subst hc
              simp [arcRadius] at hq
              exact .inl hq.symm
          · by_cases h3 : (envOf ops sh).innerRadius > e
            · rw [if_pos h3] at hc
              simp at hc
              rcases hc with hc | hc
              · subst hc; simp [arcRadius] at hq
              · subst hc
                simp [arcRadius] at hq
                exact .inr (.inl hq.symm)
            · rw [if_neg h3] at hc
              simp at hc
        · rw [if_neg h2] at hc
          rw [List.mem_append] at hc
          rcases hc with hc | hc
          · unfold sectorOuter at hc
            by_cases h4 : ¬((envOf ops sh).arc > e)
            · rw [if_pos h4] at hc
              simp at hc
              subst hc
              simp [arcRadius] at hq
            · rw [if_neg h4] at hc
              by_cases h5 : (limitedPair ops (envOf ops sh)).1 > e
              · rw [if_pos h5] at hc
                rw [List.mem_cons] at hc
                rcases hc with hc | hc
                · subst hc; simp [arcRadius] at hq
                · by_cases h6 : (limitedPair ops (envOf ops sh)).1 < ocrMaxE (envOf ops sh)
                  · rw [if_pos h6] at hc
                    simp at hc
                    subst hc
                    simp [arcRadius] at hq
                    exact .inr (.inr (by rw [← hq]; exact houter))
                  · rw [if_neg h6] at hc
                    simp at hc
                    rcases hc with hc | hc | hc
                    · subst hc
                      simp [arcRadius] at hq
                      exact .inr (.inr (by
                        rw [← hq]
                        exact le_trans (min_le_right _ _) houter))
                    · subst hc
                      simp [arcRadius] at hq
                      exact .inl hq.symm
                    · subst hc
                      simp [arcRadius] at hq
                      exact .inr (.inr (by
                        rw [← hq]
                        exact le_trans (min_le_right _ _) houter))
              · rw [if_neg h5] at hc
                simp at hc
                rcases hc with hc | hc
                · subst hc; simp [arcRadius] at hq
                · subst hc
                  simp [arcRadius] at hq
                  exact .inl hq.symm
          · unfold sectorInner at hc
            by_cases h4 : ¬((envOf ops sh).innerRadius > e) ∨ ¬((envOf ops sh).arc > e)
            · rw [if_pos h4] at hc
              simp at hc
              subst hc
              simp [arcRadius] at hq
            · rw [if_neg h4] at hc
              by_cases h5 : (limitedPair ops (envOf ops sh)).2 > e
              · rw [if_pos h5] at hc
                rw [List.mem_cons] at hc
                rcases hc with hc | hc
                · subst hc; simp [arcRadius] at hq
                · by_cases h6 : (limitedPair ops (envOf ops sh)).2 < icrMaxE (envOf ops sh)
                  · rw [if_pos h6] at hc
                    simp at hc
                    subst hc
                    simp [arcRadius] at hq
                    exact .inr (.inr (by rw [← hq]; exact hinner))
                  · rw [if_neg h6] at hc
                    simp at hc
                    rcases hc with hc | hc | hc
                    · subst hc
                      simp [arcRadius] at hq
                      exact .inr (.inr (by
                        rw [← hq]
                        exact le_trans (min_le_right _ _) hinner))
                    · subst hc
                      simp [arcRadius] at hq
                      exact .inr (.inl hq.symm)
                    · subst hc
                      simp [arcRadius] at hq
                      exact .inr (.inr (by
                        rw [← hq]
                        exact le_trans (min_le_right _ _) hinner))
              · rw [if_neg h5] at hc
                simp at hc
                subst hc
                simp [arcRadius] at hq
                exact .inr (.inl hq.symm)
    · simp at hc
      subst hc
      simp [arcRadius] at hq

/-- C1 witness: on the full annulus `shC1w` the outer full-circle arc
command is emitted with radius `10`, the effective outer radius. -/
theorem fillet_radius_bound_w :
    (10 : ℚ) = effR shC1w ∨ (10 : ℚ) = effR0 shC1w ∨ (10 : ℚ) ≤ |shC1w.r - shC1w.r0| / 2 :=
  fillet_radius_bound dummyOps shC1w
    (.arc 0 0 10 0 (2 * (22 / 7)) false)
    (by norm_num [buildPath, bodyOf, circleBody, envOf, effR, effR0, effectiveRadii, sectorArc,
      normalizeArcAngles, modPI2, calcCircleCenter, dummyOps, shC1w, e, max_def, min_def,
      abs_of_nonneg])
    10 rfl

/-- C2 counterexample: on `shC2x` the tangent-line clamp strictly reduces
the maximum outer corner radius (`limitedOcrMax = 100/101 < 25 = ocrMax`),
yet — because the computed sweep `1/20000` is below the epsilon — the
collapsed-sweep branch of line 240 runs: the output is a bare
`MoveTo, LineTo, ClosePath` with **no** Arc at all, so no "MoveTo followed
by a single merged fillet Arc" is emitted. -/
theorem merged_fillet_counter :
    (limitedPair opsC2x (envOf opsC2x shC2x)).1 < ocrMaxE (envOf opsC2x shC2x) ∧
    buildPath opsC2x shC2x = [.moveTo 100 0, .lineTo 0 0, .closePath] ∧
    (buildPath opsC2x shC2x).countP isArcCmd = 0 := by
  refine ⟨?_, ?_, ?_⟩ <;>
    norm_num [buildPath, bodyOf, sectorOuter, sectorInner, circleBody, limitedPair, intersectOf,
      intersect, envOf, effR, effR0, effectiveRadii, sectorArc, normalizeArcAngles, modPI2,
      normalizeCornerRadius, crArr, mapWithIdx, parsePercent, halfRdE, ocrsE, ocreE, icrsE, icreE,
      ocrMaxE, icrMaxE, xrs, yrs, xire, yire, xre, yre, xirs, yirs, crStartO, crEndO, crStartI,
      crEndI, ct0O, ct1O, ct0I, ct1I, computeCornerTangents, calcCircleCenter, opsC2x, shC2x,
      e, max_def, min_def, abs_of_nonneg, List.getD, List.countP_cons, List.countP_nil, isArcCmd]

/-- C2 amended: whenever the sweep exceeds the epsilon `1e-4` and the
tangent-line clamp reduces the maximum outer corner radius
(`limitedOcrMax < ocrMax`) to a value still above the epsilon, the outer
boundary is emitted as a `MoveTo` followed by the single merged fillet
`Arc` at radius `limitedOcrMax` (lines 250-256), and no arc at the
effective outer radius `r` appears anywhere in the output.  The hypothesis
`3 < π` records that the rational stand-in for `Math.PI` is at least the
real π bound. -/
theorem merged_fillet :
    ∀ (ops : Ops) (sh : Shape),
      3 < ops.pi →
      (envOf ops sh).arc > e →
      (limitedPair ops (envOf ops sh)).1 > e →
      (limitedPair ops (envOf ops sh)).1 < ocrMaxE (envOf ops sh) →
      buildPath ops sh =
        .moveTo ((envOf ops sh).cx + (ct0O ops (envOf ops sh)).cx + (ct0O ops (envOf ops sh)).x0)
          ((envOf ops sh).cy + (ct0O ops (envOf ops sh)).cy + (ct0O ops (envOf ops sh)).y0) ::
        .arc ((envOf ops sh).cx + (ct0O ops (envOf ops sh)).cx)
          ((envOf ops sh).cy + (ct0O ops (envOf ops sh)).cy)
          (limitedPair ops (envOf ops sh)).1
          (ops.atan2 (ct0O ops (envOf ops sh)).y0 (ct0O ops (envOf ops sh)).x0)
          (ops.atan2 (ct1O ops (envOf ops sh)).y0 (ct1O ops (envOf ops sh)).x0)
          (!(envOf ops sh).clockwise) ::
        (sectorInner ops (envOf ops sh) ++ [.closePath]) ∧
      ∀ c ∈ buildPath ops sh, arcRadius c ≠ some (effR sh) := by
  intro ops sh hpi ha hm hlt
  have hb1 := limitedPair_fst_le ops (envOf ops sh)
  have hb2 := limitedPair_snd_le ops (envOf ops sh)
  have ho := ocrMaxE_le_halfRdE (envOf ops sh)
  have hi := icrMaxE_le_halfRdE (envOf ops sh)
  have he0 : (0 : ℚ) < e := by norm_num [e]
  have hhalf_gt : e < halfRdE (envOf ops sh) :=
    lt_of_lt_of_le hm (le_trans hb1 ho)
  have habs : halfRdE (envOf ops sh) = (effR sh - effR0 sh) / 2 := by
    unfold halfRdE
    rw [envOf_radius, envOf_innerRadius, abs_of_nonneg (sub_nonneg.mpr (effR0_le_effR sh))]
  have hR00 := effR0_nonneg sh
  have hR0R : effR0 sh < effR sh := by
    rw [habs] at hhalf_gt
    linarith
  have hr : (envOf ops sh).radius > e := by
    rw [envOf_radius]
    rw [habs] at hhalf_gt
    linarith
  have hRlt : halfRdE (envOf ops sh) < effR sh := by
    rw [habs]
    rw [envOf_radius] at hr
    linarith
  have hltR : (limitedPair ops (envOf ops sh)).1 < effR sh :=
    lt_of_le_of_lt (le_trans hb1 ho) hRlt
  have hc2 : ¬((envOf ops sh).arc > 2 * ops.pi - e) := by
    have hap := limitedPair_lt_arc ops (envOf ops sh) hlt
    intro hgt
    have he : e = 1 / 10000 := rfl
    rw [he] at hgt
    linarith
  have hso : sectorOuter ops (envOf ops sh) =
      [.moveTo ((envOf ops sh).cx + (ct0O ops (envOf ops sh)).cx + (ct0O ops (envOf ops sh)).x0)
         ((envOf ops sh).cy + (ct0O ops (envOf ops sh)).cy + (ct0O ops (envOf ops sh)).y0),
       .arc ((envOf ops sh).cx + (ct0O ops (envOf ops sh)).cx)
         ((envOf ops sh).cy + (ct0O ops (envOf ops sh)).cy)
         (limitedPair ops (envOf ops sh)).1
         (ops.atan2 (ct0O ops (envOf ops sh)).y0 (ct0O ops (envOf ops sh)).x0)
         (ops.atan2 (ct1O ops (envOf ops sh)).y0 (ct1O ops (envOf ops sh)).x0)
         (!(envOf ops sh).clockwise)] := by
    unfold sectorOuter
    rw [if_neg (not_not_intro ha), if_pos hm, if_pos hlt]
  have heq : buildPath ops sh =
      .moveTo ((envOf ops sh).cx + (ct0O ops (envOf ops sh)).cx + (ct0O ops (envOf ops sh)).x0)
        ((envOf ops sh).cy + (ct0O ops (envOf ops sh)).cy + (ct0O ops (envOf ops sh)).y0) ::
      .arc ((envOf ops sh).cx + (ct0O ops (envOf ops sh)).cx)
        ((envOf ops sh).cy + (ct0O ops (envOf ops sh)).cy)
        (limitedPair ops (envOf ops sh)).1
        (ops.atan2 (ct0O ops (envOf ops sh)).y0 (ct0O ops (envOf ops sh)).x0)
        (ops.atan2 (ct1O ops (envOf ops sh)).y0 (ct1O ops (envOf ops sh)).x0)
        (!(envOf ops sh).clockwise) ::
      (sectorInner ops (envOf ops sh) ++ [.closePath]) := by
    unfold buildPath
    rw [if_neg (guard_false_of_effR sh (by rw [envOf_radius] at hr; exact hr))]
    unfold bodyOf
    rw [if_neg (not_not_intro hr), if_neg hc2, hso]
    rfl
  refine ⟨heq, ?_⟩
  intro c hcm
  rw [heq] at hcm
  rcases List.mem_cons.mp hcm with rfl | hcm
  · simp [arcRadius]
  rcases List.mem_cons.mp hcm with rfl | hcm
  · simp only [arcRadius, ne_eq, Option.some.injEq]
    exact ne_of_lt hltR
  rw [List.mem_append] at hcm
  rcases hcm with hcm | hcm
  · unfold sectorInner at hcm
    by_cases h4 : ¬((envOf ops sh).innerRadius > e) ∨ ¬((envOf ops sh).arc > e)
    · rw [if_pos h4] at hcm
      simp at hcm
      subst hcm
      simp [arcRadius]
    · rw [if_neg h4] at hcm
      by_cases h5 : (limitedPair ops (envOf ops sh)).2 > e
      · rw [if_pos h5] at hcm
        rcases List.mem_cons.mp hcm with rfl | hcm
        · simp [arcRadius]
        by_cases h6 : (limitedPair ops (envOf ops sh)).2 < icrMaxE (envOf ops sh)
        · rw [if_pos h6] at hcm
          simp at hcm
          subst hcm
          simp only [arcRadius, ne_eq, Option.some.injEq]
          exact ne_of_lt (lt_of_le_of_lt (le_trans hb2 hi) hRlt)
        · rw [if_neg h6] at hcm
          simp at hcm
          rcases hcm with rfl | rfl | rfl
          · simp only [arcRadius, ne_eq, Option.some.injEq]
            exact ne_of_lt (lt_of_le_of_lt (le_trans (min_le_right _ _) (le_trans hb2 hi)) hRlt)
          · simp only [arcRadius, ne_eq, Option.some.injEq]
            exact ne_of_lt hR0R
          · simp only [arcRadius, ne_eq, Option.some.injEq]
            exact ne_of_lt (lt_of_le_of_lt (le_trans (min_le_right _ _) (le_trans hb2 hi)) hRlt)
      · rw [if_neg h5] at hcm
        simp at hcm
        subst hcm
        simp only [arcRadius, ne_eq, Option.some.injEq]
        exact ne_of_lt hR0R
  · simp at hcm
    subst hcm
    simp [arcRadius]

/-- C2 witness: the narrow sector `shC2w` (sweep `1/2`, radius `100`,
corner radius `50`) under `opsC2w`: `limitedOcrMax = 75/2 < 50 = ocrMax`,
and the outer boundary collapses to `MoveTo` plus one merged arc. -/
theorem merged_fillet_w :
    buildPath opsC2w shC2w =
      .moveTo ((envOf opsC2w shC2w).cx + (ct0O opsC2w (envOf opsC2w shC2w)).cx
          + (ct0O opsC2w (envOf opsC2w shC2w)).x0)
        ((envOf opsC2w shC2w).cy + (ct0O opsC2w (envOf opsC2w shC2w)).cy
          + (ct0O opsC2w (envOf opsC2w shC2w)).y0) ::
      .arc ((envOf opsC2w shC2w).cx + (ct0O opsC2w (envOf opsC2w shC2w)).cx)
        ((envOf opsC2w shC2w).cy + (ct0O opsC2w (envOf opsC2w shC2w)).cy)
        (limitedPair opsC2w (envOf opsC2w shC2w)).1
        (opsC2w.atan2 (ct0O opsC2w (envOf opsC2w shC2w)).y0 (ct0O opsC2w (envOf opsC2w shC2w)).x0)
        (opsC2w.atan2 (ct1O opsC2w (envOf opsC2w shC2w)).y0 (ct1O opsC2w (envOf opsC2w shC2w)).x0)
        (!(envOf opsC2w shC2w).clockwise) ::
      (sectorInner opsC2w (envOf opsC2w shC2w) ++ [.closePath]) ∧
    ∀ c ∈ buildPath opsC2w shC2w, arcRadius c ≠ some (effR shC2w) :=
  merged_fillet opsC2w shC2w (by norm_num [opsC2w])
    (by norm_num [envOf_arc, sectorArc, normalizeArcAngles, modPI2, opsC2w, shC2w, e,
      abs_of_nonneg])
    (by norm_num [limitedPair, intersectOf, intersect, envOf, effR, effR0, effectiveRadii,
      sectorArc, normalizeArcAngles, modPI2, normalizeCornerRadius, crArr, mapWithIdx,
      parsePercent, halfRdE, ocrsE, ocreE, icrsE, icreE, ocrMaxE, icrMaxE, xrs, yrs, xire, yire,
      xre, yre, xirs, yirs, opsC2w, shC2w, e, max_def, min_def, abs_of_nonneg, List.getD])
    (by norm_num [limitedPair, intersectOf, intersect, envOf, effR, effR0, effectiveRadii,
      sectorArc, normalizeArcAngles, modPI2, normalizeCornerRadius, crArr, mapWithIdx,
      parsePercent, halfRdE, ocrsE, ocreE, icrsE, icreE, ocrMaxE, icrMaxE, xrs, yrs, xire, yire,
      xre, yre, xirs, yirs, opsC2w, shC2w, e, max_def, min_def, abs_of_nonneg, List.getD])

/-- C5 counterexample: with the percentage corner radius `"50%"`, swapping
`r = 100` and `r0 = 10` changes the output, because line 173 resolves the
percentages against the **unswapped** `r0` and `r`: the outer fillet radius
becomes `min(halfRd, 50% of r)` — `45` for the original input but `5` for
the swapped one. -/
theorem swap_radii_counter :
    ¬(buildPath dummyOps shC5a = buildPath dummyOps shC5b) := by
  norm_num [buildPath, bodyOf, sectorOuter, sectorInner, circleBody, limitedPair, intersectOf,
    intersect, envOf, effR, effR0, effectiveRadii, sectorArc, normalizeArcAngles, modPI2,
    normalizeCornerRadius, crArr, mapWithIdx, parsePercent, halfRdE, ocrsE, ocreE, icrsE, icreE,
    ocrMaxE, icrMaxE, xrs, yrs, xire, yire, xre, yre, xirs, yirs, crStartO, crEndO, crStartI,
    crEndI, ct0O, ct1O, ct0I, ct1I, computeCornerTangents, calcCircleCenter, dummyOps,
    shC5a, shC5b, e, max_def, min_def, abs_of_nonneg, List.getD]

/-- C5 amended: swapping `r` and `r0` yields exactly the same command
sequence for every **percentage-free** corner-radius specification (scalar
or list of plain numbers): the effective radii of lines 136-156 are
symmetric in `r` and `r0`, and plain numbers ignore the resolution bases.
With percentage entries the bases follow the unswapped `r0`, `r`
(line 173), so outputs can differ. -/
theorem swap_radii_eq :
    ∀ (ops : Ops) (cx cy sa ea : ℚ) (cw : Bool) (r r0 : ℚ) (cr : CRSpec),
      crNoPercent cr = true →
      buildPath ops ⟨cx, cy, sa, ea, cw, r, r0, cr⟩ =
      buildPath ops ⟨cx, cy, sa, ea, cw, r0, r, cr⟩ := by
  intro ops cx cy sa ea cw r r0 cr h
  have henv : envOf ops ⟨cx, cy, sa, ea, cw, r, r0, cr⟩ =
      envOf ops ⟨cx, cy, sa, ea, cw, r0, r, cr⟩ := by
    simp only [envOf, effR, effR0]
    rw [effectiveRadii_comm r r0, ncr_num cr h r0 r r r0]
  unfold buildPath
  rw [henv]
  exact if_congr and_comm rfl rfl

/-- C5 witness: the spec's example pair `r = 5, r0 = 10` (plain-number
corner radius 4) produces identical outputs when swapped. -/
theorem swap_radii_eq_w :
    buildPath dummyOps shC5w1 = buildPath dummyOps shC5w2 :=
  swap_radii_eq dummyOps 0 0 0 (1 / 2) true 5 10 (.one (.num 4)) rfl

/-- C6: the corner-radius resolver follows the shorthand table — scalar `v`
to `[v,v,v,v]`, `[a]` to `[a,a,0,0]`, `[a,b]` to `[a,a,b,b]`, `[a,b,c]` to
`[a,b,c,c]`, `[a,b,c,d]` kept — in the order (inner-start, inner-end,
outer-start, outer-end), resolving each entry against `r0` for the first
two slots and `r` for the last two, where a percentage `"n%"` resolves to
`(n/100) * base` and a plain number to itself. -/
theorem normalizeCornerRadius_table :
    ∀ (r0 r base v n : ℚ) (a b c d : CRVal),
      parsePercent (.num v) base = v ∧
      parsePercent (.percent n) base = n / 100 * base ∧
      normalizeCornerRadius (.one a) r0 r
        = [parsePercent a r0, parsePercent a r0, parsePercent a r, parsePercent a r] ∧
      normalizeCornerRadius (.list [a]) r0 r
        = [parsePercent a r0, parsePercent a r0, 0, 0] ∧
      normalizeCornerRadius (.list [a, b]) r0 r
        = [parsePercent a r0, parsePercent a r0, parsePercent b r, parsePercent b r] ∧
      normalizeCornerRadius (.list [a, b, c]) r0 r
        = [parsePercent a r0, parsePercent b r0, parsePercent c r, parsePercent c r] ∧
      normalizeCornerRadius (.list [a, b, c, d]) r0 r
        = [parsePercent a r0, parsePercent b r0, parsePercent c r, parsePercent d r] := by
  intro r0 r base v n a b c d
  exact ⟨rfl, rfl, rfl, rfl, rfl, rfl, rfl⟩

/-- C9: the line-intersection primitive returns `none` exactly when the
square of the determinant of the two direction vectors is below `1e-4`
(lines 27-30), and in that case the tangent-line restriction of lines
222-235 is skipped, leaving `limitedOcrMax = ocrMax` and
`limitedIcrMax = icrMax`; `intersect` and `limitedPair` are total, so no
error is raised. -/
theorem intersect_none_iff :
    (∀ x0 y0 x1 y1 x2 y2 x3 y3 : ℚ,
      intersect x0 y0 x1 y1 x2 y2 x3 y3 = none ↔
        ((y3 - y2) * (x1 - x0) - (x3 - x2) * (y1 - y0)) *
          ((y3 - y2) * (x1 - x0) - (x3 - x2) * (y1 - y0)) < e) ∧
    ∀ (ops : Ops) (env : SectorEnv),
      intersectOf ops env = none →
      limitedPair ops env = (ocrMaxE env, icrMaxE env) := by
  constructor
  · intro x0 y0 x1 y1 x2 y2 x3 y3
    simp only [intersect]
    split_ifs with h
    · exact iff_of_true rfl h
    · simp [h]
  · intro ops env h
    unfold limitedPair
    rw [h]
    split_ifs <;> rfl

/-- C9 witness: on a zero-sweep environment the two radial edge lines
coincide, the determinant is `0`, and the limited radii equal the raw
maxima. -/
theorem intersect_none_iff_w :
    limitedPair dummyOps envC9w = (ocrMaxE envC9w, icrMaxE envC9w) :=
  intersect_none_iff.2 dummyOps envC9w (by
    norm_num [intersectOf, intersect, envC9w, envOf, effR, effR0, effectiveRadii,
      xrs, yrs, xire, yire, xre, yre, xirs, yirs, dummyOps, e, max_def, min_def])

/-- C8: with `startAngle = endAngle` and a non-negligible effective outer
radius, `buildPath` emits exactly one `MoveTo` (at the outer-radius point at
the start angle), no `Arc` at all, and still closes: the full output is
`[MoveTo(outer point), LineTo(inner point), ClosePath]` (lines 164-166,
240-241, 274-275, 306).  The hypothesis `3 < π` records that the rational
stand-in for `Math.PI` is at least as large as the real π bound used by the
full-circle test. -/
theorem zero_sweep_single_moveTo :
    ∀ (ops : Ops) (sh : Shape),
      3 < ops.pi → sh.startAngle = sh.endAngle → effR sh > e →
      buildPath ops sh =
        [.moveTo (sh.cx + effR sh * ops.cos sh.startAngle)
           (sh.cy + effR sh * ops.sin sh.startAngle),
         .lineTo (sh.cx + effR0 sh * ops.cos sh.endAngle)
           (sh.cy + effR0 sh * ops.sin sh.endAngle),
         .closePath] ∧
      (buildPath ops sh).countP isArcCmd = 0 ∧
      (buildPath ops sh).countP isMoveToCmd = 1 := by
  intro ops sh hpi hse hr
  have harc : (envOf ops sh).arc = 0 := by
    rw [envOf_arc]
    unfold sectorArc
    rw [if_pos hse]
  have hr' : (envOf ops sh).radius > e := hr
  have heq : buildPath ops sh =
      [.moveTo (sh.cx + effR sh * ops.cos sh.startAngle)
         (sh.cy + effR sh * ops.sin sh.startAngle),
       .lineTo (sh.cx + effR0 sh * ops.cos sh.endAngle)
         (sh.cy + effR0 sh * ops.sin sh.endAngle),
       .closePath] := by
    unfold buildPath
    rw [if_neg (guard_false_of_effR sh hr)]
    unfold bodyOf
    rw [if_neg (not_not_intro hr')]
    have hc2 : ¬((envOf ops sh).arc > 2 * ops.pi - e) := by
      rw [harc]
      have he : e = 1 / 10000 := rfl
      intro hgt
      rw [he] at hgt
      linarith
    rw [if_neg hc2]
    have hna : ¬((envOf ops sh).arc > e) := by
      rw [harc]
      norm_num [e]
    unfold sectorOuter
    rw [if_pos hna]
    unfold sectorInner
    rw [if_pos (Or.inr hna)]
    simp only [xrs, yrs, xire, yire, envOf_cx, envOf_cy, envOf_radius, envOf_innerRadius,
      envOf_startAngle, envOf_endAngle]
    rfl
  refine ⟨heq, ?_, ?_⟩ <;> rw [heq] <;>
    simp [List.countP_cons, List.countP_nil, isArcCmd, isMoveToCmd]

/-- C8 witness: zero sweep at angle `1/2`, radii `10` and `4`. -/
theorem zero_sweep_single_moveTo_w :
    buildPath dummyOps shC8w =
      [.moveTo (shC8w.cx + effR shC8w * dummyOps.cos shC8w.startAngle)
         (shC8w.cy + effR shC8w * dummyOps.sin shC8w.startAngle),
       .lineTo (shC8w.cx + effR0 shC8w * dummyOps.cos shC8w.endAngle)
         (shC8w.cy + effR0 shC8w * dummyOps.sin shC8w.endAngle),
       .closePath] ∧
    (buildPath dummyOps shC8w).countP isArcCmd = 0 ∧
    (buildPath dummyOps shC8w).countP isMoveToCmd = 1 :=
  zero_sweep_single_moveTo dummyOps shC8w (by norm_num [dummyOps]) rfl
    (by norm_num [effR, effectiveRadii, shC8w, e, max_def, min_def])

/-- C7 counterexample: at computed sweep exactly `2π - 1e-4` (which is
"at least `2π - 1e-4`") with outer radius `10 > 1e-4` and inner radius
`4 > 1e-4`, the strict test `arc > 2π - e` of line 180 fails, the general
sector branch runs instead, and only one `MoveTo` is emitted — not the
claimed second `MoveTo` at the inner-radius point. -/
theorem full_circle_annulus_counter :
    sectorArc dummyOps shC7x.clockwise shC7x.startAngle shC7x.endAngle
        ≥ 2 * dummyOps.pi - e ∧
    effR shC7x > e ∧ effR0 shC7x > e ∧
    (buildPath dummyOps shC7x).countP isMoveToCmd = 1 := by
  refine ⟨?_, ?_, ?_, ?_⟩
  · norm_num [sectorArc, normalizeArcAngles, modPI2, dummyOps, shC7x, e, abs_of_nonneg]
  · norm_num [effR, effectiveRadii, shC7x, e, max_def, min_def]
  · norm_num [effR0, effectiveRadii, shC7x, e, max_def, min_def]
  · norm_num [buildPath, bodyOf, sectorOuter, sectorInner, circleBody, limitedPair, intersectOf,
      intersect, envOf, effR, effR0, effectiveRadii, sectorArc, normalizeArcAngles, modPI2,
      normalizeCornerRadius, crArr, mapWithIdx, parsePercent, halfRdE, ocrsE, ocreE, icrsE, icreE,
      ocrMaxE, icrMaxE, xrs, yrs, xire, yire, xre, yre, xirs, yirs, crStartO, crEndO, crStartI,
      crEndI, ct0O, ct1O, ct0I, ct1I, computeCornerTangents, calcCircleCenter, dummyOps, shC7x,
      e, max_def, min_def, abs_of_nonneg, List.getD, List.countP_cons, List.countP_nil, isMoveToCmd]

/-- C7 amended: when the computed sweep **strictly exceeds** `2π - 1e-4`
and the effective outer radius exceeds `1e-4`, `buildPath` emits a `MoveTo`
at the outer-radius point at `startAngle`, a full outer `Arc` with
`anticlockwise = !clockwise`, then — exactly when the effective inner
radius exceeds `1e-4` — a `MoveTo` at the inner-radius point at `endAngle`
and a full inner `Arc` with the opposite winding (`anticlockwise =
clockwise`); no `LineTo` appears, and the path is closed (lines 180-190,
306). -/
theorem full_circle_annulus :
    ∀ (ops : Ops) (sh : Shape),
      effR sh > e → (envOf ops sh).arc > 2 * ops.pi - e →
      buildPath ops sh =
        ([.moveTo (sh.cx + effR sh * ops.cos sh.startAngle)
            (sh.cy + effR sh * ops.sin sh.startAngle),
          .arc sh.cx sh.cy (effR sh) sh.startAngle sh.endAngle (!sh.clockwise)] ++
         (if effR0 sh > e then
            [.moveTo (sh.cx + effR0 sh * ops.cos sh.endAngle)
               (sh.cy + effR0 sh * ops.sin sh.endAngle),
             .arc sh.cx sh.cy (effR0 sh) sh.endAngle sh.startAngle sh.clockwise]
          else []) ++ [.closePath]) ∧
      (buildPath ops sh).countP isLineToCmd = 0 := by
  intro ops sh hr harc
  have hr' : (envOf ops sh).radius > e := hr
  have heq : buildPath ops sh =
      ([.moveTo (sh.cx + effR sh * ops.cos sh.startAngle)
          (sh.cy + effR sh * ops.sin sh.startAngle),
        .arc sh.cx sh.cy (effR sh) sh.startAngle sh.endAngle (!sh.clockwise)] ++
       (if effR0 sh > e then
          [.moveTo (sh.cx + effR0 sh * ops.cos sh.endAngle)
             (sh.cy + effR0 sh * ops.sin sh.endAngle),
           .arc sh.cx sh.cy (effR0 sh) sh.endAngle sh.startAngle sh.clockwise]
        else []) ++ [.closePath]) := by
    unfold buildPath
    rw [if_neg (guard_false_of_effR sh hr)]
    unfold bodyOf
    rw [if_neg (not_not_intro hr'), if_pos harc]
    unfold circleBody
    simp only [calcCircleCenter, envOf_cx, envOf_cy, envOf_radius, envOf_innerRadius,
      envOf_startAngle, envOf_endAngle, envOf_clockwise]
  refine ⟨heq, ?_⟩
  rw [heq]
  by_cases hi : effR0 sh > e
  · rw [if_pos hi]
    simp [List.countP_cons, List.countP_nil, List.countP_append, isLineToCmd]
  · rw [if_neg hi]
    simp [List.countP_cons, List.countP_nil, List.countP_append, isLineToCmd]

/-- C7 witness: start angle `0`, end angle `2π` (for the rational `pi` of
`dummyOps`), radii `10` and `4`: a true annulus with opposite windings. -/
theorem full_circle_annulus_w :
    buildPath dummyOps shC7w =
      ([.moveTo (shC7w.cx + effR shC7w * dummyOps.cos shC7w.startAngle)
          (shC7w.cy + effR shC7w * dummyOps.sin shC7w.startAngle),
        .arc shC7w.cx shC7w.cy (effR shC7w) shC7w.startAngle shC7w.endAngle (!shC7w.clockwise)] ++
       (if effR0 shC7w > e then
          [.moveTo (shC7w.cx + effR0 shC7w * dummyOps.cos shC7w.endAngle)
             (shC7w.cy + effR0 shC7w * dummyOps.sin shC7w.endAngle),
           .arc shC7w.cx shC7w.cy (effR0 shC7w) shC7w.endAngle shC7w.startAngle shC7w.clockwise]
        else []) ++ [.closePath]) ∧
    (buildPath dummyOps shC7w).countP isLineToCmd = 0 :=
  full_circle_annulus dummyOps shC7w
    (by norm_num [effR, effectiveRadii, shC7w, e, max_def, min_def])
    (by norm_num [envOf_arc, sectorArc, normalizeArcAngles, modPI2, dummyOps, shC7w, e, abs_of_nonneg])

/-- C10: the emitted command sequence is either empty — exactly when
neither `max(r,0)` nor `max(r0,0)` is positive — or begins with a `MoveTo`
and ends with a `ClosePath`. -/
theorem buildPath_shape :
    ∀ (ops : Ops) (sh : Shape),
      (buildPath ops sh = [] ↔ max sh.r 0 ≤ 0 ∧ max sh.r0 0 ≤ 0) ∧
      (buildPath ops sh = [] ∨
        ((∃ x y t, buildPath ops sh = .moveTo x y :: t) ∧
         ∃ t', buildPath ops sh = t' ++ [.closePath])) := by
  intro ops sh
  refine ⟨buildPath_empty_iff ops sh, ?_⟩
  unfold buildPath
  by_cases hg : ¬(max sh.r 0 > 0) ∧ ¬(max sh.r0 0 > 0)
  · rw [if_pos hg]
    exact .inl rfl
  · rw [if_neg hg]
    right
    obtain ⟨x, y, t, ht⟩ := bodyOf_head ops (envOf ops sh)
    exact ⟨⟨x, y, t ++ [.closePath], by rw [ht]; simp⟩, ⟨bodyOf ops (envOf ops sh), rfl⟩⟩

end Zr
